import Mathlib

/-!
Verification of `rf_watch_rtlsdr.py` (RTL-SDR RF watcher).

This file gives a shallow embedding of the pure core of the program:

* `scan_band` — the parse of one `rtl_power` invocation's raw text output
  into a pair of positionally matched lists (bin frequencies, powers);
* `detect_peaks` — the median-based peak detector;
* the `hits.sort(key=power, reverse=True)` step of `main`;
* `speak` — the rate-limited text-to-speech alert dispatcher, with the
  global `last_tts_time` made an explicit argument/result.

Python `float` values are modelled as rationals (`ℚ`): every numeric
literal the claims exercise is exactly representable, and none of the
claims hinge on binary floating-point rounding.  Python library string
functions (`strip`, `splitlines`, `split`, `float(...)`) are modelled by
explicit recursive functions on `List Char` so that everything reduces
inside the kernel.
-/

namespace RFWatch

/-- Characters removed by Python `str.strip()` (the ASCII whitespace set;
the inputs at hand contain no exotic Unicode whitespace). -/
def pyIsSpace (c : Char) : Bool :=
  c = ' ' || c = '\t' || c = '\n' || c = '\r' || c = '\x0b' || c = '\x0c'

/-- Model of Python `str.strip()`: drop leading and trailing whitespace. -/
def pyStrip (cs : List Char) : List Char :=
  ((cs.dropWhile pyIsSpace).reverse.dropWhile pyIsSpace).reverse

/-- Accumulator worker for `pySplitlines`. -/
def splitlinesAux : List Char → List Char → List (List Char)
  | [], acc => if acc.isEmpty then [] else [acc.reverse]
  | '\r' :: '\n' :: rest, acc => acc.reverse :: splitlinesAux rest []
  | '\n' :: rest, acc => acc.reverse :: splitlinesAux rest []
  | '\r' :: rest, acc => acc.reverse :: splitlinesAux rest []
  | c :: rest, acc => splitlinesAux rest (c :: acc)

/-- Model of Python `str.splitlines()` for the `\n`, `\r\n` and `\r`
line terminators (a trailing terminator yields no empty final line). -/
def pySplitlines (cs : List Char) : List (List Char) :=
  splitlinesAux cs []

/-- Accumulator worker for `pySplit`. -/
def splitOnAux (sep : Char) : List Char → List Char → List (List Char)
  | [], acc => [acc.reverse]
  | c :: rest, acc =>
    if c = sep then acc.reverse :: splitOnAux sep rest []
    else splitOnAux sep rest (c :: acc)

/-- Model of Python `str.split(sep)` for a one-character separator:
splits at every occurrence, keeping empty fields. -/
def pySplit (sep : Char) (cs : List Char) : List (List Char) :=
  splitOnAux sep cs []

/-- Numeric value of a string of decimal digits. -/
def digitsVal (ds : List Char) : Nat :=
  ds.foldl (fun a c => 10 * a + (c.toNat - 48)) 0

/-- Model of Python `float(s)` on the decimal-literal fragment: optional
surrounding whitespace, optional sign, integer part, optional fractional
part, optional decimal exponent; at least one digit must be present.
`inf`/`nan` and underscore digit separators are not modelled (they never
occur in `rtl_power` output and no claim exercises them). -/
def pyFloat? (cs0 : List Char) : Option ℚ :=
  let cs1 := pyStrip cs0
  let sgn : ℚ := match cs1 with | '-' :: _ => -1 | _ => 1
  let cs2 := match cs1 with | '-' :: r => r | '+' :: r => r | _ => cs1
  let ip := cs2.takeWhile Char.isDigit
  let cs3 := cs2.dropWhile Char.isDigit
  let fp := match cs3 with | '.' :: r => r.takeWhile Char.isDigit | _ => []
  let cs4 := match cs3 with | '.' :: r => r.dropWhile Char.isDigit | _ => cs3
  if ip.isEmpty && fp.isEmpty then none
  else
    let mant : ℚ := sgn * ((digitsVal ip : ℚ) + (digitsVal fp : ℚ) / 10 ^ fp.length)
    match cs4 with
    | [] => some mant
    | e :: r =>
      if e = 'e' || e = 'E' then
        let eneg : Bool := match r with | '-' :: _ => true | _ => false
        let r2 := match r with | '-' :: t => t | '+' :: t => t | _ => r
        let ed := r2.takeWhile Char.isDigit
        let r3 := r2.dropWhile Char.isDigit
        if ed.isEmpty || !r3.isEmpty then none
        else some (if eneg then mant / 10 ^ digitsVal ed else mant * 10 ^ digitsVal ed)
      else none

/-- The `THRESHOLD_ABOVE_MEDIAN_DB = 3.5` configuration constant. -/
def THRESHOLD_ABOVE_MEDIAN_DB : ℚ := 3.5

/-- The `TTS_COOLDOWN_SEC = 5` configuration constant. -/
def TTS_COOLDOWN_SEC : ℚ := 5

/-- One iteration of `scan_band`'s line filter: a line is kept as a data
line iff, after stripping, it is non-empty, does not start with `#`,
contains a comma, and splits into at least 8 comma-separated fields;
the fields are returned. -/
def dataFields (line : List Char) : Option (List (List Char)) :=
  match pyStrip line with
  | [] => none
  | c :: cs =>
    if c = '#' then none
    else if !((c :: cs).contains ',') then none
    else
      let parts := pySplit ',' (c :: cs)
      if parts.length ≥ 8 then some parts else none

/-- The power-bin loop of `scan_band`
(`for i, p_str in enumerate(power_values_str)`): `i` is the position in
the raw field list (starting from the given counter), a field that is
empty after stripping or fails `float` parsing is skipped, and a
retained field contributes `(freq_start + i * bin_hz, p_db)`. -/
def scanPairsFrom (freq_start bin_hz : ℚ) : Nat → List (List Char) → List (ℚ × ℚ)
  | _, [] => []
  | i, s :: rest =>
    let p := pyStrip s
    if p.isEmpty then scanPairsFrom freq_start bin_hz (i + 1) rest
    else
      match pyFloat? p with
      | none => scanPairsFrom freq_start bin_hz (i + 1) rest
      | some p_db => (freq_start + (i : ℚ) * bin_hz, p_db) :: scanPairsFrom freq_start bin_hz (i + 1) rest

/-- The pure part of `scan_band`: from the raw text output of `rtl_power`,
keep the usable CSV data lines, take the last one, parse fields 2 and 4 as
start frequency and bin width (returning `([], [])` if either fails or no
data line exists), and turn fields 6 onward into the positionally paired
frequency and power lists. -/
def scan_band (out : List Char) : List ℚ × List ℚ :=
  match ((pySplitlines out).filterMap dataFields).getLast? with
  | none => ([], [])
  | some parts =>
    match pyFloat? (parts.getD 2 []), pyFloat? (parts.getD 4 []) with
    | some freq_start, some bin_hz =>
      let pairs := scanPairsFrom freq_start bin_hz 0 (parts.drop 6)
      (pairs.map Prod.fst, pairs.map Prod.snd)
    | some _, none => ([], [])
    | none, _ => ([], [])

/-- The bin width `scan_band` would parse from the chosen data line of a
raw output (`none` when there is no data line or the field fails to
parse). -/
def headerBin? (out : List Char) : Option ℚ :=
  match ((pySplitlines out).filterMap dataFields).getLast? with
  | none => none
  | some parts => pyFloat? (parts.getD 4 [])

/-- Model of Python `statistics.median`: sort ascending; odd length takes
the middle element, even length averages the two middle elements.  Python
raises `StatisticsError` on empty input; `detect_peaks` guards against
empty input, so the junk value returned here for `[]` is never used. -/
def pyMedian (l : List ℚ) : ℚ :=
  let s := l.insertionSort (· ≤ ·)
  let n := s.length
  if n % 2 = 1 then s.getD (n / 2) 0
  else (s.getD (n / 2 - 1) 0 + s.getD (n / 2) 0) / 2

/-- `detect_peaks`: on an empty power list return `[]`; otherwise return,
in input order, the `(freq, power)` pairs of `zip freqs powers` whose
power is `≥ median(powers) + THRESHOLD_ABOVE_MEDIAN_DB`. -/
def detect_peaks (freqs powers : List ℚ) : List (ℚ × ℚ) :=
  if powers.isEmpty then []
  else
    let cutoff := pyMedian powers + THRESHOLD_ABOVE_MEDIAN_DB
    (freqs.zip powers).filter fun fp => decide (cutoff ≤ fp.2)

/-- The `hits.sort(key=lambda x: x[1], reverse=True)` step of `main`:
sort the hit list so that powers are descending.  (Python's sort is
stable; the relation used here can differ from it only in the relative
order of equal powers, which no property below depends on.) -/
def hits_sort (hits : List (ℚ × ℚ)) : List (ℚ × ℚ) :=
  hits.insertionSort fun a b => b.2 ≤ a.2

/-- Result of one call to `speak`: whether the enable and cooldown checks
passed (message logged and an espeak spawn attempted), whether the espeak
process was actually started, and the value of the global `last_tts_time`
after the call. -/
structure SpeakResult where
  dispatched : Bool
  spoke : Bool
  last' : ℚ
  deriving DecidableEq, Repr

/-- Model of `speak`: `enable` is `ENABLE_TTS_ALERTS`, `espeakFound`
models whether `subprocess.Popen` finds the espeak binary (its absence
raises `FileNotFoundError`, which the code catches after having already
set `last_tts_time = now`), `now` is `time.time()` and `last` the global
`last_tts_time` on entry. -/
def speak (enable espeakFound : Bool) (now last : ℚ) : SpeakResult :=
  if enable = false then ⟨false, false, last⟩
  else if now - last < TTS_COOLDOWN_SEC then ⟨false, false, last⟩
  else ⟨true, espeakFound, now⟩

section

attribute [local semireducible] Rat.mul Rat.add Rat.sub Rat.inv Rat.ofScientific

/-- C1: for every non-empty sweep, a sample `(f, p)` of the sweep is
returned as a detection by `detect_peaks` iff its power is greater than
or equal to `median(powers) + THRESHOLD_ABOVE_MEDIAN_DB`; a power exactly
equal to the cutoff counts as a detection (the comparison is inclusive). -/
theorem C1_detection_iff (freqs powers : List ℚ) (h : powers ≠ []) (f p : ℚ) :
    (f, p) ∈ detect_peaks freqs powers ↔
      (f, p) ∈ freqs.zip powers ∧ pyMedian powers + THRESHOLD_ABOVE_MEDIAN_DB ≤ p := by
  unfold detect_peaks
  rw [if_neg (by simpa using h)]
  simp [List.mem_filter]

/-- Witness for C1 at a concrete sweep: powers `[10, 0]` have median 5 and
cutoff 8.5, so the sample `(0, 10)` is a detection. -/
theorem C1_witness : ((0 : ℚ), (10 : ℚ)) ∈ detect_peaks [0, 1] [10, 0] :=
  (C1_detection_iff [0, 1] [10, 0] (by decide) 0 10).mpr (by decide)

/-- C2: parsing the raw line
`2024/01/01,00:00:00,144000000,148000000,25000,160,-70.0,-71.0,-50.0,-69.5`
yields powers `[-70, -71, -50, -69.5]` at frequencies
`[144000000, 144025000, 144050000, 144075000]`; the noise floor (median)
is -69.75, the cutoff -66.25, and peak detection returns exactly one
detection, at 144050000 Hz with power -50 dB. -/
theorem C2_end_to_end :
    scan_band "2024/01/01,00:00:00,144000000,148000000,25000,160,-70.0,-71.0,-50.0,-69.5".data
      = ([144000000, 144025000, 144050000, 144075000], [-70, -71, -50, -69.5]) ∧
    pyMedian [-70, -71, -50, -69.5] = -69.75 ∧
    pyMedian [-70, -71, -50, -69.5] + THRESHOLD_ABOVE_MEDIAN_DB = -66.25 ∧
    detect_peaks [144000000, 144025000, 144050000, 144075000] [-70, -71, -50, -69.5]
      = [(144050000, -50)] := by
  refine ⟨by decide, by decide, by decide, by decide⟩

/-- C10: on every raw output, `scan_band` returns a frequency list and a
power list of equal length (the loop appends to both in lockstep and all
failure paths return a pair of empty lists). -/
theorem C10_lengths_match (out : List Char) :
    (scan_band out).1.length = (scan_band out).2.length := by
  unfold scan_band
  split
  · rfl
  · split
    · simp
    · rfl
    · rfl

/-- C6 counterexample: with TTS enabled, cooldown satisfied, but the
espeak binary missing (`subprocess.Popen` raises `FileNotFoundError`),
nothing is spoken yet `last_tts_time` is still updated from 0 to 10,
because the code sets `last_tts_time = now` before attempting the spawn. -/
theorem C6_counterexample :
    (speak true false 10 0).spoke = false ∧
    (speak true false 10 0).last' = 10 ∧ ((10 : ℚ) ≠ 0) := by
  refine ⟨rfl, rfl, by decide⟩

/-- C6 (amended): `last_tts_time` is updated (set to `now`) exactly when
the attempt passes the enable and cooldown checks — i.e. when dispatch is
attempted — including when the speech tool is missing and nothing is
actually spoken; suppressed and disabled attempts leave it unchanged. -/
theorem C6_last_time_update (enable avail : Bool) (now last : ℚ) :
    (speak enable avail now last).last' =
      if (speak enable avail now last).dispatched = true then now else last := by
  unfold speak
  cases enable with
  | false => simp
  | true => by_cases hc : now - last < TTS_COOLDOWN_SEC <;> simp [hc]

/-- Descending-by-power is a total relation on hit pairs. -/
instance : IsTotal (ℚ × ℚ) (fun a b => b.2 ≤ a.2) :=
  ⟨fun a b => le_total b.2 a.2⟩

/-- Descending-by-power is a transitive relation on hit pairs. -/
instance : IsTrans (ℚ × ℚ) (fun a b => b.2 ≤ a.2) :=
  ⟨fun _ _ _ hab hbc => hbc.trans hab⟩

/-- C4 counterexample: `detect_peaks` itself returns hits in input
(frequency) order, not sorted by power.  Powers `[-70, -70, -60, -50]`
have median -65 and cutoff -61.5, giving hits `[(2, -60), (3, -50)]`,
which is ascending — not descending — in power. -/
theorem C4_counterexample :
    detect_peaks [0, 1, 2, 3] [-70, -70, -60, -50] = [(2, -60), (3, -50)] ∧
    ¬ List.Sorted (fun a b : ℚ × ℚ => b.2 ≤ a.2)
        (detect_peaks [0, 1, 2, 3] [-70, -70, -60, -50]) := by
  refine ⟨by decide, by decide⟩

/-- C4 (amended): `detect_peaks` returns the qualifying hits in input
(ascending-frequency) order; the watch loop then sorts them with
`hits.sort(key=power, reverse=True)` before reporting, so the reported
sequence is ordered by power descending (strongest first). -/
theorem C4_reported_hits_descending (freqs powers : List ℚ) :
    List.Sorted (fun a b : ℚ × ℚ => b.2 ≤ a.2) (hits_sort (detect_peaks freqs powers)) :=
  List.sorted_insertionSort _ _

/-- C5: with TTS alerts enabled, if an alert attempt at time `t1` is
dispatched, then: the alert state records `t1`; a second attempt coming
strictly less than `TTS_COOLDOWN_SEC` after it is suppressed with no
output and no state change; a second attempt coming at least
`TTS_COOLDOWN_SEC` after it is dispatched; and conversely the second
attempt is dispatched only if the two are at least a cooldown apart — so
at most one alert is emitted per cooldown interval. -/
theorem C5_cooldown (avail1 avail2 : Bool) (t1 t2 last0 : ℚ)
    (h1 : (speak true avail1 t1 last0).dispatched = true) :
    (speak true avail1 t1 last0).last' = t1 ∧
    (t2 - t1 < TTS_COOLDOWN_SEC →
      speak true avail2 t2 (speak true avail1 t1 last0).last' = ⟨false, false, t1⟩) ∧
    (TTS_COOLDOWN_SEC ≤ t2 - t1 →
      (speak true avail2 t2 (speak true avail1 t1 last0).last').dispatched = true) ∧
    ((speak true avail2 t2 (speak true avail1 t1 last0).last').dispatched = true →
      TTS_COOLDOWN_SEC ≤ t2 - t1) := by
  have hcool : ¬ (t1 - last0 < TTS_COOLDOWN_SEC) := by
    intro hc
    simp [speak, hc] at h1
  have hfst : speak true avail1 t1 last0 = ⟨true, avail1, t1⟩ := by
    simp [speak, hcool]
  rw [hfst]
  refine ⟨rfl, ?_, ?_, ?_⟩
  · intro hlt
    simp [speak, hlt]
  · intro hge
    simp [speak, not_lt.mpr hge]
  · intro hd
    by_contra hlt
    push_neg at hlt
    simp [speak, hlt] at hd

/-- Witness for C5 at concrete times: a first attempt at t=10 (state 0)
is dispatched, and a second attempt at t=12 — only 2 s later, within the
5 s cooldown — is suppressed with the state left at 10. -/
theorem C5_witness :
    speak true true 12 (speak true true 10 0).last' = ⟨false, false, 10⟩ :=
  (C5_cooldown true true 10 12 0 (by decide)).2.1 (by decide)

/-- Every hit produced by the power-bin loop started at counter `i` comes
from some raw field position: the `j`-th remaining raw field parses to
the hit's power and the hit's frequency is `freq_start + (i + j) * bin_hz`
— the counter advances on skipped fields too. -/
theorem scanPairsFrom_mem_raw (fs bh : ℚ) :
    ∀ (l : List (List Char)) (i : Nat) (f p : ℚ),
      (f, p) ∈ scanPairsFrom fs bh i l →
      ∃ j, j < l.length ∧ pyFloat? (pyStrip (l.getD j [])) = some p ∧
        f = fs + ((i + j : Nat) : ℚ) * bh := by
  intro l
  induction l with
  | nil =>
    intro i f p hp
    simp [scanPairsFrom] at hp
  | cons s rest ih =>
    intro i f p hp
    simp only [scanPairsFrom] at hp
    split at hp
    · obtain ⟨j, hj, hpf, hf⟩ := ih (i + 1) f p hp
      refine ⟨j + 1, by simpa using hj, by simpa using hpf, ?_⟩
      have hn : (i + 1) + j = i + (j + 1) := by omega
      rw [hf, hn]
    · split at hp
      · obtain ⟨j, hj, hpf, hf⟩ := ih (i + 1) f p hp
        refine ⟨j + 1, by simpa using hj, by simpa using hpf, ?_⟩
        have hn : (i + 1) + j = i + (j + 1) := by omega
        rw [hf, hn]
      · rename_i p_db hpd
        rcases List.mem_cons.mp hp with heq | hmem
        · simp only [Prod.mk.injEq] at heq
          obtain ⟨hf, hp2⟩ := heq
          subst hf
          subst hp2
          exact ⟨0, by simp, by simpa using hpd, by simp⟩
        · obtain ⟨j, hj, hpf, hf⟩ := ih (i + 1) f p hmem
          refine ⟨j + 1, by simpa using hj, by simpa using hpf, ?_⟩
          have hn : (i + 1) + j = i + (j + 1) := by omega
          rw [hf, hn]

/-- C3 counterexample: with power fields `-70.0`, `xx`, `-50.0` and header
start 1000 Hz / bin width 10 Hz, the malformed field `xx` is skipped but
the retained value -50.0 keeps its raw-position frequency
`1000 + 2·10 = 1020`; the claim's position-among-retained rule would
instead assign `1000 + 1·10 = 1010`, so skipping does not shift the
subsequent frequencies. -/
theorem C3_counterexample :
    scan_band "h1,h2,1000,2000,10,3,-70.0,xx,-50.0".data = ([1000, 1020], [-70, -50]) ∧
    ((1020 : ℚ) ≠ 1000 + 1 * 10) := by
  refine ⟨by decide, by decide⟩

/-- C3 (amended): every sample of a parsed sweep takes its frequency from
its position among ALL power fields of the chosen data line (skipped
malformed fields included): the sample's power is the parse of the raw
field at some position `j` and its frequency is
`freq_start + j * bin_hz`, so a dropped malformed field does NOT shift
the frequencies of subsequent retained values. -/
theorem C3_freq_from_raw_position (out : List Char) (f p : ℚ)
    (h : (f, p) ∈ (scan_band out).1.zip (scan_band out).2) :
    ∃ parts freq_start bin_hz j,
      ((pySplitlines out).filterMap dataFields).getLast? = some parts ∧
      pyFloat? (parts.getD 2 []) = some freq_start ∧
      pyFloat? (parts.getD 4 []) = some bin_hz ∧
      j < (parts.drop 6).length ∧
      pyFloat? (pyStrip ((parts.drop 6).getD j [])) = some p ∧
      f = freq_start + (j : ℚ) * bin_hz := by
  unfold scan_band at h
  split at h
  · simp at h
  · rename_i parts hlast
    split at h
    · rename_i freq_start bin_hz h2 h4
      rw [List.zip_map'] at h
      simp only [Prod.mk.eta, List.map_id'] at h
      obtain ⟨j, hj, hpf, hf⟩ := scanPairsFrom_mem_raw freq_start bin_hz (parts.drop 6) 0 f p h
      exact ⟨parts, freq_start, bin_hz, j, hlast, h2, h4, hj, hpf, by simpa using hf⟩
    · simp at h
    · simp at h

/-- Witness for C3 at the counterexample input: the retained sample
`(1020, -50)` of the parsed sweep comes from raw field position 2. -/
theorem C3_witness :
    ∃ parts freq_start bin_hz j,
      ((pySplitlines "h1,h2,1000,2000,10,3,-70.0,xx,-50.0".data).filterMap
          dataFields).getLast? = some parts ∧
      pyFloat? (parts.getD 2 []) = some freq_start ∧
      pyFloat? (parts.getD 4 []) = some bin_hz ∧
      j < (parts.drop 6).length ∧
      pyFloat? (pyStrip ((parts.drop 6).getD j [])) = some (-50) ∧
      (1020 : ℚ) = freq_start + (j : ℚ) * bin_hz :=
  C3_freq_from_raw_position "h1,h2,1000,2000,10,3,-70.0,xx,-50.0".data 1020 (-50) (by decide)

/-- Every hit produced by the power-bin loop started at counter `i` has
frequency at least `freq_start + i * bin_hz` when the bin width is
nonnegative. -/
theorem scanPairsFrom_fst_lower (fs bh : ℚ) (hb : 0 ≤ bh) :
    ∀ (l : List (List Char)) (i : Nat) (fp : ℚ × ℚ),
      fp ∈ scanPairsFrom fs bh i l → fs + (i : ℚ) * bh ≤ fp.1 := by
  intro l
  induction l with
  | nil =>
    intro i fp hfp
    simp [scanPairsFrom] at hfp
  | cons s rest ih =>
    intro i fp hfp
    have hstep : fs + (i : ℚ) * bh ≤ fs + ((i + 1 : Nat) : ℚ) * bh := by
      push_cast
      nlinarith [hb]
    simp only [scanPairsFrom] at hfp
    split at hfp
    · exact hstep.trans (ih (i + 1) fp hfp)
    · split at hfp
      · exact hstep.trans (ih (i + 1) fp hfp)
      · rcases List.mem_cons.mp hfp with heq | hmem
        · subst heq
          simp
        · exact hstep.trans (ih (i + 1) fp hmem)

/-- With a positive bin width, the frequencies produced by the power-bin
loop are strictly increasing. -/
theorem scanPairsFrom_fst_sorted (fs bh : ℚ) (hb : 0 < bh) :
    ∀ (l : List (List Char)) (i : Nat),
      List.Pairwise (· < ·) ((scanPairsFrom fs bh i l).map Prod.fst) := by
  intro l
  induction l with
  | nil =>
    intro i
    simp [scanPairsFrom]
  | cons s rest ih =>
    intro i
    simp only [scanPairsFrom]
    split
    · exact ih (i + 1)
    · split
      · exact ih (i + 1)
      · simp only [List.map_cons]
        refine List.pairwise_cons.mpr ⟨?_, ih (i + 1)⟩
        intro f' hf'
        rcases List.mem_map.mp hf' with ⟨fp, hfp, rfl⟩
        have hlow := scanPairsFrom_fst_lower fs bh (le_of_lt hb) rest (i + 1) fp hfp
        have hstrict : fs + (i : ℚ) * bh < fs + ((i + 1 : Nat) : ℚ) * bh := by
          push_cast
          nlinarith [hb]
        linarith

/-- C8 counterexample: a raw output whose data line carries bin width 0
parses to the non-empty frequency list `[1000, 1000]`, which is not
strictly increasing. -/
theorem C8_counterexample :
    (scan_band "d1,d2,1000,2000,0,2,-70.0,-60.0".data).1 = [1000, 1000] ∧
    ¬ List.Pairwise (· < ·) (scan_band "d1,d2,1000,2000,0,2,-70.0,-60.0".data).1 := by
  refine ⟨by decide, by decide⟩

/-- C8 (amended): for every raw output whose chosen data line parses to a
POSITIVE bin width (as every genuine rtl_power sweep does), the parsed
sweep's frequency list is strictly increasing; a zero or negative parsed
bin width is accepted by the parser and breaks the invariant. -/
theorem C8_freqs_strictly_increasing (out : List Char)
    (hpos : 0 < (headerBin? out).getD 1) :
    List.Pairwise (· < ·) (scan_band out).1 := by
  unfold headerBin? at hpos
  unfold scan_band
  split
  · simp
  · rename_i parts hlast
    rw [hlast] at hpos
    change 0 < (pyFloat? (parts.getD 4 [])).getD 1 at hpos
    split
    · rename_i freq_start bin_hz h2 h4
      rw [h4] at hpos
      simp only [Option.getD_some] at hpos
      exact scanPairsFrom_fst_sorted freq_start bin_hz hpos (parts.drop 6) 0
    · simp
    · simp

/-- Witness for C8 at the end-to-end line (bin width 25000 > 0): the
parsed frequencies are strictly increasing. -/
theorem C8_witness :
    List.Pairwise (· < ·)
      (scan_band "2024/01/01,00:00:00,144000000,148000000,25000,160,-70.0,-71.0,-50.0,-69.5".data).1 :=
  C8_freqs_strictly_increasing _ (by decide)

/-- C7: if the raw output contains no usable data line (in particular if
no comma-bearing line survives the filter), or the chosen data line's
start-frequency or bin-width header field fails to parse, then
`scan_band` yields the empty sweep and `detect_peaks` on it yields zero
detections — both by returning normally, with no error path involved. -/
theorem C7_empty_sweep (out : List Char)
    (h : (∀ l ∈ pySplitlines out, dataFields l = none) ∨
      ∃ parts, ((pySplitlines out).filterMap dataFields).getLast? = some parts ∧
        (pyFloat? (parts.getD 2 []) = none ∨ pyFloat? (parts.getD 4 []) = none)) :
    scan_band out = ([], []) ∧
    detect_peaks (scan_band out).1 (scan_band out).2 = [] := by
  have hmain : scan_band out = ([], []) := by
    rcases h with hnone | ⟨parts, hlast, hbad⟩
    · have hnil : (pySplitlines out).filterMap dataFields = [] :=
        List.filterMap_eq_nil_iff.mpr hnone
      unfold scan_band
      rw [hnil]
      rfl
    · unfold scan_band
      split
      · rfl
      · rename_i parts2 hlast2
        rw [hlast] at hlast2
        injection hlast2 with hp2
        subst hp2
        split
        · rename_i freq_start bin_hz h2' h4'
          rcases hbad with h2 | h4
          · rw [h2] at h2'
            simp at h2'
          · rw [h4] at h4'
            simp at h4'
        · rfl
        · rfl
  exact ⟨hmain, by rw [hmain]; rfl⟩

/-- Witness for C7: a raw output made of a status banner, a comma-bearing
cancel message with fewer than 8 fields, and a comment line parses to the
empty sweep and yields zero detections. -/
theorem C7_witness :
    scan_band "Found 1 device(s)\nUser cancel, exiting...\n# done".data = ([], []) ∧
    detect_peaks (scan_band "Found 1 device(s)\nUser cancel, exiting...\n# done".data).1
      (scan_band "Found 1 device(s)\nUser cancel, exiting...\n# done".data).2 = [] :=
  C7_empty_sweep _ (Or.inl (by decide))

end

end RFWatch
